import Mathlib

/-!
# Verification of the overdrip OAuth2/PKCE login core

A shallow embedding in Lean 4 of the security-relevant core of the
`overdrip` repository: the PKCE generator, the callback-listener
orchestration, the token exchange, the token store, and the login
orchestrator.  Pure Rust functions become Lean functions; the effectful
parts (the async listener, the file system) become explicit state /
trace-passing functions parameterised over the environment's choices
(bind success, channel delivery, task outcome, prior file contents).

Machine integers are modelled as `Nat` with explicit `% 2^w` where
overflow matters.  Randomness is modelled by passing the random bytes as
an argument.
-/

namespace Overdrip

/-! ## Bytes and encodings

`base64::engine::general_purpose::URL_SAFE_NO_PAD.encode` from the Rust
`base64` crate: the URL-safe alphabet (`A–Z a–z 0–9 - _`), no padding.
Bytes are `Nat`s below 256. -/

/-- The URL-safe base64 alphabet, RFC 4648 §5. -/
def b64UrlAlphabet : List Char :=
  "ABCDEFGHIJKLMNOPQRSTUVWXYZabcdefghijklmnopqrstuvwxyz0123456789-_".data

/-- The character for a 6-bit group. -/
def b64Char (n : Nat) : Char := b64UrlAlphabet.getD n 'A'

/-- URL-safe base64 encoding, without padding, of a byte list
(`URL_SAFE_NO_PAD.encode`). Groups of 3 bytes become 4 characters; a
final group of 1 byte becomes 2 characters and of 2 bytes becomes 3
characters, with no `=` padding. -/
def b64UrlNoPad : List Nat → List Char
  | [] => []
  | [b1] => [b64Char (b1 >>> 2), b64Char ((b1 &&& 3) <<< 4)]
  | [b1, b2] =>
      [b64Char (b1 >>> 2), b64Char (((b1 &&& 3) <<< 4) ||| (b2 >>> 4)),
       b64Char ((b2 &&& 15) <<< 2)]
  | b1 :: b2 :: b3 :: rest =>
      b64Char (b1 >>> 2) :: b64Char (((b1 &&& 3) <<< 4) ||| (b2 >>> 4)) ::
      b64Char (((b2 &&& 15) <<< 2) ||| (b3 >>> 6)) :: b64Char (b3 &&& 63) ::
      b64UrlNoPad rest

/-- UTF-8 encoding of one character (the bytes `str::as_bytes` exposes). -/
def utf8Char (c : Char) : List Nat :=
  let n := c.toNat
  if n < 0x80 then [n]
  else if n < 0x800 then [0xC0 ||| (n >>> 6), 0x80 ||| (n &&& 0x3F)]
  else if n < 0x10000 then
    [0xE0 ||| (n >>> 12), 0x80 ||| ((n >>> 6) &&& 0x3F), 0x80 ||| (n &&& 0x3F)]
  else
    [0xF0 ||| (n >>> 18), 0x80 ||| ((n >>> 12) &&& 0x3F),
     0x80 ||| ((n >>> 6) &&& 0x3F), 0x80 ||| (n &&& 0x3F)]

/-- UTF-8 bytes of a string (`str::as_bytes`). -/
def utf8Bytes (s : String) : List Nat := (s.data.map utf8Char).flatten

/-! ## SHA-256 (the `sha2` crate / FIPS 180-4)

32-bit words are `Nat`s taken modulo `2^32`. -/

/-- `2^32`, the modulus of 32-bit words. -/
def M32 : Nat := 4294967296

/-- Right rotation of a 32-bit word. -/
def rotr32 (n x : Nat) : Nat := ((x >>> n) ||| (x <<< (32 - n))) % M32

/-- FIPS 180-4 `Ch(x,y,z) = (x ∧ y) ⊕ (¬x ∧ z)` (32-bit complement). -/
def shaCh (x y z : Nat) : Nat := (x &&& y) ^^^ ((x ^^^ 0xFFFFFFFF) &&& z)

/-- FIPS 180-4 `Maj(x,y,z)`. -/
def shaMaj (x y z : Nat) : Nat := (x &&& y) ^^^ (x &&& z) ^^^ (y &&& z)

/-- FIPS 180-4 `Σ0`. -/
def bigSigma0 (x : Nat) : Nat := rotr32 2 x ^^^ rotr32 13 x ^^^ rotr32 22 x

/-- FIPS 180-4 `Σ1`. -/
def bigSigma1 (x : Nat) : Nat := rotr32 6 x ^^^ rotr32 11 x ^^^ rotr32 25 x

/-- FIPS 180-4 `σ0`. -/
def smallSigma0 (x : Nat) : Nat := rotr32 7 x ^^^ rotr32 18 x ^^^ (x >>> 3)

/-- FIPS 180-4 `σ1`. -/
def smallSigma1 (x : Nat) : Nat := rotr32 17 x ^^^ rotr32 19 x ^^^ (x >>> 10)

/-- The 64 SHA-256 round constants (FIPS 180-4 sect. 4.2.2), written in
decimal. -/
def shaK : List Nat :=
  [1116352408, 1899447441, 3049323471, 3921009573, 961987163,
   1508970993, 2453635748, 2870763221, 3624381080, 310598401,
   607225278, 1426881987, 1925078388, 2162078206, 2614888103,
   3248222580, 3835390401, 4022224774, 264347078, 604807628,
   770255983, 1249150122, 1555081692, 1996064986, 2554220882,
   2821834349, 2952996808, 3210313671, 3336571891, 3584528711,
   113926993, 338241895, 666307205, 773529912, 1294757372,
   1396182291, 1695183700, 1986661051, 2177026350, 2456956037,
   2730485921, 2820302411, 3259730800, 3345764771, 3516065817,
   3600352804, 4094571909, 275423344, 430227734, 506948616,
   659060556, 883997877, 958139571, 1322822218, 1537002063,
   1747873779, 1955562222, 2024104815, 2227730452, 2361852424,
   2428436474, 2756734187, 3204031479, 3329325298]

/-- The initial SHA-256 hash value (FIPS 180-4 sect. 5.3.3), in decimal. -/
def shaH0 : List Nat :=
  [1779033703, 3144134277, 1013904242, 2773480762,
   1359893119, 2600822924, 528734635, 1541459225]

/-- Big-endian bytes of a number, `k` bytes wide. -/
def toBytesBE (k n : Nat) : List Nat :=
  match k with
  | 0 => []
  | k + 1 => toBytesBE k (n / 256) ++ [n % 256]

/-- SHA-256 padding: append `0x80`, zero bytes to reach 56 mod 64, then
the bit length as 8 big-endian bytes. -/
def shaPad (msg : List Nat) : List Nat :=
  let L := msg.length
  msg ++ 0x80 :: List.replicate ((119 - (L % 64)) % 64) 0
      ++ toBytesBE 8 ((8 * L) % (2 ^ 64))

/-- Split a byte list into chunks of `64` (structural fuel recursion so
the kernel can evaluate it; `fuel = l.length` always suffices since
`drop 64` shortens a nonempty list). -/
def chunks64Aux : Nat → List Nat → List (List Nat)
  | 0, _ => []
  | _, [] => []
  | fuel + 1, x :: xs => (x :: xs).take 64 :: chunks64Aux fuel ((x :: xs).drop 64)

/-- Split a byte list into chunks of `64`. -/
def chunks64 (l : List Nat) : List (List Nat) := chunks64Aux l.length l

/-- Combine big-endian bytes into 32-bit words, 4 bytes each. -/
def bytesToWords : List Nat → List Nat
  | b0 :: b1 :: b2 :: b3 :: rest =>
      (b0 <<< 24 ||| b1 <<< 16 ||| b2 <<< 8 ||| b3) :: bytesToWords rest
  | _ => []

/-- Extend 16 message words to the 64-entry message schedule. -/
def shaExtend : Nat → Array Nat → Array Nat
  | 0, w => w
  | n + 1, w =>
      let t := w.size
      let x := (smallSigma1 (w.getD (t - 2) 0) + w.getD (t - 7) 0 +
                smallSigma0 (w.getD (t - 15) 0) + w.getD (t - 16) 0) % M32
      shaExtend n (w.push x)

/-- One SHA-256 round: state `[a,b,c,d,e,f,g,h]`, schedule word `w`,
constant `k`. -/
def shaRound (s : List Nat) (wk : Nat × Nat) : List Nat :=
  match s with
  | [a, b, c, d, e, f, g, h] =>
      let t1 := (h + bigSigma1 e + shaCh e f g + wk.2 + wk.1) % M32
      let t2 := (bigSigma0 a + shaMaj a b c) % M32
      [(t1 + t2) % M32, a, b, c, (d + t1) % M32, e, f, g]
  | _ => s

/-- Compress one 64-byte block into the running hash. -/
def shaCompress (h : List Nat) (block : List Nat) : List Nat :=
  let w := shaExtend 48 (List.toArray (bytesToWords block))
  let s := (w.toList.zip shaK).foldl shaRound h
  (h.zip s).map (fun p => (p.1 + p.2) % M32)

/-- SHA-256 of a byte list, as 32 bytes (the `sha2` crate's
`Sha256::digest`). -/
def sha256 (msg : List Nat) : List Nat :=
  (((chunks64 (shaPad msg)).foldl shaCompress shaH0).map (toBytesBE 4)).flatten

/-! ## PKCE generator (`src/auth/oath.rs`, `generate_pkce_challenge`)

The Rust function draws 32 random bytes from `rand::rng()`; the
embedding takes those bytes as an argument. -/

/-- `struct PkceChallenge { verifier: String, challenge: String }`. -/
structure PkceChallenge where
  verifier : String
  challenge : String
deriving DecidableEq, Repr

/-- `generate_pkce_challenge`, parameterised over the 32 random bytes it
draws: the verifier is the base64url-no-pad encoding of the random
bytes, the challenge the base64url-no-pad encoding of the SHA-256 digest
of the verifier's UTF-8 bytes. -/
def generate_pkce_challenge (randomBytes : List Nat) : PkceChallenge :=
  let verifier : String := ⟨b64UrlNoPad randomBytes⟩
  let challenge : String := ⟨b64UrlNoPad (sha256 (utf8Bytes verifier))⟩
  { verifier := verifier, challenge := challenge }

/-! ## OAuth client identity (`src/auth/oath.rs`)

`CLIENT_ID`/`CLIENT_SECRET` are compile-time `env!` constants in the
source; their concrete values are deployment-specific, so they are
modelled as fixed opaque-looking string constants.  No claim depends on
their values. -/

/-- `pub(crate) const CLIENT_ID: &str = env!("OAUTH_CLIENT_ID")`. -/
def CLIENT_ID : String := "OAUTH_CLIENT_ID"

/-- `pub(crate) const CLIENT_SECRET: &str = env!("OAUTH_CLIENT_SECRET")`. -/
def CLIENT_SECRET : String := "OAUTH_CLIENT_SECRET"

/-! ## Error taxonomy

The source uses `anyhow` errors with context strings; the spec names
them.  Constructors carry the transport message where the source wraps
an underlying error. -/

/-- The failure modes of the login flow visible in the source. -/
inductive AuthError where
  /-- `TcpListener::bind("localhost:8080").await?` failed. -/
  | listenerBindError
  /-- `rx.recv()` returned `None`: context
  "Channel closed before receiving auth code". -/
  | callbackChannelClosed
  /-- `server_handle.await` failed: context "Server task panicked". -/
  | listenerTaskFailed
  /-- `request.send().await?` / `res.text().await?` failed. -/
  | exchangeTransportError (msg : String)
  /-- `save_tokens` failed: context "Failed to save tokens". -/
  | saveTokensFailed
deriving DecidableEq, Repr

/-! ## Callback listener (`start_oath_server`)

The async function is embedded as a trace-producing function over the
environment's choices: whether the port bind succeeds, what (if
anything) the hand-off channel delivers to `rx.recv()`, and whether the
spawned server task terminates normally.  The trace records, in program
order, the effects the caller performs; the function's straight-line
structure (bind, spawn, recv, send shutdown, await handle, return) is
mirrored directly. -/

/-- Caller-side events of `start_oath_server`, in program order. -/
inductive ServerEvent where
  /-- The `TcpListener` bound the port and the server task was spawned. -/
  | bound
  /-- `rx.recv()` yielded the authorization code to the caller. -/
  | codeReceived (code : String)
  /-- `shutdown_tx.send(())` was issued. -/
  | shutdownSent
  /-- `server_handle.await` completed: the listener task terminated. -/
  | listenerTerminated
deriving DecidableEq, Repr

/-- `start_oath_server`, over the environment's choices.  `bindOk`:
whether `TcpListener::bind` succeeds; `recvResult`: what `rx.recv()`
returns (`none` models a closed channel); `serverTaskOk`: whether
`server_handle.await` succeeds (`false` models a panicked task).
Returns the event trace in program order and the result. -/
def start_oath_server (bindOk : Bool) (recvResult : Option String)
    (serverTaskOk : Bool) : List ServerEvent × Except AuthError String :=
  if bindOk then
    match recvResult with
    | none => ([.bound], .error .callbackChannelClosed)
    | some code =>
        if serverTaskOk then
          ([.bound, .codeReceived code, .shutdownSent, .listenerTerminated],
           .ok code)
        else
          ([.bound, .codeReceived code, .shutdownSent],
           .error .listenerTaskFailed)
  else ([], .error .listenerBindError)

/-! ## Token exchange (`exchange_code_for_tokens`) -/

/-- An HTTP response as seen by `reqwest`: status code and body text. -/
structure HttpResponse where
  status : Nat
  body : String
deriving DecidableEq, Repr

/-- `struct TokenRequest`, the form body POSTed to the token endpoint. -/
structure TokenRequest where
  code : String
  client_id : String
  client_secret : String
  code_verifier : String
  redirect_uri : String
  grant_type : String
deriving DecidableEq, Repr

/-- `TokenRequest::new`. -/
def TokenRequest.new (code code_verifier : String) : TokenRequest :=
  { code := code
    client_id := CLIENT_ID
    client_secret := CLIENT_SECRET
    code_verifier := code_verifier
    redirect_uri := "http://localhost:8080/callback"
    grant_type := "authorization_code" }

/-- `exchange_code_for_tokens`, over the environment: `sendResult`
models `request.send().await`, `textResult` models `res.text().await`.
Mirroring the source faithfully: the response status is never
inspected, the body is only logged (never deserialized), and on success
the function returns `()` — it does not produce a token set. -/
def exchange_code_for_tokens (code_verifier code : String)
    (sendResult : Except String HttpResponse)
    (textResult : Except String String) : Except AuthError Unit :=
  let _request := TokenRequest.new code code_verifier
  match sendResult with
  | .error e => .error (.exchangeTransportError e)
  | .ok _res =>
      match textResult with
      | .error e => .error (.exchangeTransportError e)
      | .ok _body => .ok ()

/-! ## Login orchestrator (`src/auth/mod.rs`, `Auth::login`) -/

/-- Caller-side events of `Auth::login`, in program order. -/
inductive LoginEvent where
  /-- `println!("Login at: {auth_url}")`. -/
  | urlPrinted (url : String)
  /-- `exchange_code_for_tokens(&pkce.verifier, &code)` was invoked with
  these arguments (verifier first, as in the source). -/
  | exchangeCalled (code_verifier code : String)
  /-- `token_store.save_tokens` succeeded. -/
  | tokensSaved
deriving DecidableEq, Repr

/-- The authorization URL `Auth::login` formats, as a function of the
challenge.  Written in the association that mirrors the `format!`
template: constant prefix up to `code_challenge=`, then the challenge,
then the trailing `&code_challenge_method=S256`. -/
def authUrl (challenge : String) : String :=
  ("https://accounts.google.com/o/oauth2/v2/auth?client_id=" ++ CLIENT_ID ++
   "&redirect_uri=http://localhost:8080/callback&response_type=code&scope=openid%20email%20profile&code_challenge=")
  ++ challenge ++ "&code_challenge_method=S256"

/-- `Auth::login`, over the 32 random bytes the PKCE generator draws and
the environment's choices for the listener, the exchange, and the token
store (`saveOk`: whether `save_tokens` succeeds).  Mirrors the source
order: generate PKCE pair, format URL, print it, run the callback
server, exchange with the *same* pair's verifier, save. -/
def Auth.login (randomBytes : List Nat) (bindOk : Bool)
    (recvResult : Option String) (serverTaskOk : Bool)
    (sendResult : Except String HttpResponse)
    (textResult : Except String String) (saveOk : Bool) :
    List LoginEvent × Except AuthError Unit :=
  let pkce := generate_pkce_challenge randomBytes
  let url := authUrl pkce.challenge
  match start_oath_server bindOk recvResult serverTaskOk with
  | (_, .error e) => ([.urlPrinted url], .error e)
  | (_, .ok code) =>
      match exchange_code_for_tokens pkce.verifier code sendResult textResult with
      | .error e =>
          ([.urlPrinted url, .exchangeCalled pkce.verifier code], .error e)
      | .ok _ =>
          if saveOk then
            ([.urlPrinted url, .exchangeCalled pkce.verifier code, .tokensSaved],
             .ok ())
          else
            ([.urlPrinted url, .exchangeCalled pkce.verifier code],
             .error .saveTokensFailed)

/-! ## Token data (`src/auth/mod.rs`, `struct Tokens`)

`expires_in` is `u64` in the source; it is modelled as `Nat` (the
claims do not involve arithmetic overflow, and serialization/parsing
below treat any `Nat` uniformly). -/

/-- `struct Tokens { access_token, refresh_token, expires_in }`. -/
structure Tokens where
  access_token : String
  refresh_token : String
  expires_in : Nat
deriving DecidableEq, Repr

/-! ## JSON serialization (`serde_json::to_string_pretty`)

The pretty printer emits `{\n  "key": value,\n  ...\n}` with two-space
indentation and `": "` separators, fields in declaration order.  String
escaping follows `serde_json`'s serializer: `"` and `\` get a
backslash, the named control escapes `\b \t \n \f \r` are used for
bytes 8, 9, 10, 12, 13, all other control characters below 0x20 become
`\u00XX` with lowercase hex, and every other character is emitted
raw. -/

/-- `serde_json` string escaping of one character. -/
def escapeChar (c : Char) : List Char :=
  if c = '"' then ['\\', '"']
  else if c = '\\' then ['\\', '\\']
  else if c = Char.ofNat 8 then ['\\', 'b']
  else if c = Char.ofNat 9 then ['\\', 't']
  else if c = Char.ofNat 10 then ['\\', 'n']
  else if c = Char.ofNat 12 then ['\\', 'f']
  else if c = Char.ofNat 13 then ['\\', 'r']
  else if c.toNat < 32 then
    ['\\', 'u', '0', '0', Nat.digitChar (c.toNat / 16), Nat.digitChar (c.toNat % 16)]
  else [c]

/-- `serde_json` string escaping of a character list. -/
def escapeString (s : List Char) : List Char := (s.map escapeChar).flatten

/-- A JSON string literal: quote, escaped content, quote. -/
def quoteJson (s : List Char) : List Char := '"' :: (escapeString s ++ ['"'])

/-- Decimal rendering, most significant digit first, by structural fuel
recursion (any `fuel ≥ n` gives all digits; the kernel can evaluate
it). -/
def natCharsAux : Nat → Nat → List Char
  | 0, _ => []
  | fuel + 1, n =>
      if n < 10 then [Nat.digitChar n]
      else natCharsAux fuel (n / 10) ++ [Nat.digitChar (n % 10)]

/-- Decimal rendering of a `Nat` (serde's integer `Display`). -/
def natChars (n : Nat) : List Char := natCharsAux (n + 1) n

/-- `serde_json::to_string_pretty` output for a `Tokens` value, as a
character list: fields in declaration order, two-space indent, `": "`
separators, i.e. the text
`{\n  "access_token": …,\n  "refresh_token": …,\n  "expires_in": N\n}`
(written in right-associated cons/append form). -/
def serializeTokensChars (t : Tokens) : List Char :=
  '{' :: '\n' :: ' ' :: ' ' ::
    (quoteJson "access_token".data ++ ':' :: ' ' ::
      (quoteJson t.access_token.data ++ ',' :: '\n' :: ' ' :: ' ' ::
        (quoteJson "refresh_token".data ++ ':' :: ' ' ::
          (quoteJson t.refresh_token.data ++ ',' :: '\n' :: ' ' :: ' ' ::
            (quoteJson "expires_in".data ++ ':' :: ' ' ::
              (natChars t.expires_in ++ '\n' :: '}' :: []))))))

/-- `serde_json::to_string_pretty` output for a `Tokens` value. -/
def serializeTokens (t : Tokens) : String := ⟨serializeTokensChars t⟩

/-! ## JSON parsing (`serde_json::from_str::<Tokens>`)

A recursive-descent parser for the token shape.  It is a model of
`serde_json::from_str` restricted to the canonical field order the
serializer emits (whitespace is flexible; string escapes, including
`\uXXXX`, and decimal integers are decoded as `serde_json` does).
Inputs outside this fragment that `serde_json` would accept (reordered
fields, exponent-form numbers, unknown keys) are rejected by the model;
no claim depends on such inputs. -/

/-- JSON insignificant whitespace. -/
def isJsonWs (c : Char) : Bool := c = ' ' || c = '\n' || c = '\t' || c = '\r'

/-- Drop leading JSON whitespace. -/
def skipWs (l : List Char) : List Char := l.dropWhile isJsonWs

/-- Consume one expected character. -/
def expectChar (c : Char) : List Char → Option (List Char)
  | [] => none
  | x :: rest => if x = c then some rest else none

/-- Value of one hex digit (either case), as `serde_json` accepts. -/
def hexVal (c : Char) : Option Nat :=
  let n := c.toNat
  if 48 ≤ n ∧ n ≤ 57 then some (n - 48)
  else if 97 ≤ n ∧ n ≤ 102 then some (n - 87)
  else if 65 ≤ n ∧ n ≤ 70 then some (n - 55)
  else none

/-- Parse the body of a JSON string literal (after the opening quote):
returns the decoded content and the remainder after the closing quote.
Unescaped control characters, bad escapes, lone backslashes and missing
quotes fail, as in `serde_json`. -/
def parseJsonString : List Char → Option (List Char × List Char)
  | [] => none
  | c :: rest =>
    if c = '"' then some ([], rest)
    else if c = '\\' then
      match rest with
      | [] => none
      | e :: rest2 =>
        if e = '"' then (parseJsonString rest2).map (fun p => ('"' :: p.1, p.2))
        else if e = '\\' then (parseJsonString rest2).map (fun p => ('\\' :: p.1, p.2))
        else if e = '/' then (parseJsonString rest2).map (fun p => ('/' :: p.1, p.2))
        else if e = 'b' then
          (parseJsonString rest2).map (fun p => (Char.ofNat 8 :: p.1, p.2))
        else if e = 'f' then
          (parseJsonString rest2).map (fun p => (Char.ofNat 12 :: p.1, p.2))
        else if e = 'n' then
          (parseJsonString rest2).map (fun p => (Char.ofNat 10 :: p.1, p.2))
        else if e = 'r' then
          (parseJsonString rest2).map (fun p => (Char.ofNat 13 :: p.1, p.2))
        else if e = 't' then
          (parseJsonString rest2).map (fun p => (Char.ofNat 9 :: p.1, p.2))
        else if e = 'u' then
          match rest2 with
          | h1 :: h2 :: h3 :: h4 :: rest3 =>
            match hexVal h1, hexVal h2, hexVal h3, hexVal h4 with
            | some a, some b, some c2, some d =>
              let n := ((a * 16 + b) * 16 + c2) * 16 + d
              if n.isValidChar then
                (parseJsonString rest3).map (fun p => (Char.ofNat n :: p.1, p.2))
              else none
            | _, _, _, _ => none
          | _ => none
        else none
    else if c.toNat < 32 then none
    else (parseJsonString rest).map (fun p => (c :: p.1, p.2))

/-- Parse a decimal integer: the leading digit run, as a `Nat`. -/
def parseNumber (l : List Char) : Option (Nat × List Char) :=
  let ds := l.takeWhile Char.isDigit
  let rest := l.dropWhile Char.isDigit
  if ds.isEmpty then none
  else some (ds.foldl (fun a c => a * 10 + (c.toNat - 48)) 0, rest)

/-- Parse `"key"` followed by `:`, checking the key, returning the
remainder (whitespace-tolerant). -/
def parseKey (key : List Char) (l : List Char) : Option (List Char) := do
  let l ← expectChar '"' (skipWs l)
  let (k, l) ← parseJsonString l
  if k = key then
    let l ← expectChar ':' (skipWs l)
    pure (skipWs l)
  else none

/-- Parse a JSON string value, returning content and remainder. -/
def parseStringValue (l : List Char) : Option (List Char × List Char) := do
  let l ← expectChar '"' l
  parseJsonString l

/-- `serde_json::from_str::<Tokens>` on the canonical token document:
object with `access_token`, `refresh_token` (strings) and `expires_in`
(integer), in that order, nothing trailing. -/
def parseTokens (s : String) : Option Tokens := do
  let l ← expectChar '{' (skipWs s.data)
  let l ← parseKey "access_token".data l
  let (a, l) ← parseStringValue l
  let l ← expectChar ',' (skipWs l)
  let l ← parseKey "refresh_token".data l
  let (r, l) ← parseStringValue l
  let l ← expectChar ',' (skipWs l)
  let l ← parseKey "expires_in".data l
  let (n, l) ← parseNumber l
  let l ← expectChar '}' (skipWs l)
  if (skipWs l).isEmpty then some ⟨⟨a⟩, ⟨r⟩, n⟩ else none

/-! ## File token store (`src/auth/token_store.rs`)

The file system is modelled as the state of the one token file: absent,
or present with contents and a permission mode.  `OpenOptions` unix
semantics are mirrored: `.mode(0o600)` applies only when the open
*creates* the file; opening an existing file with `truncate(true)`
replaces its contents but leaves its permissions unchanged.  The
success paths of the I/O calls are modelled (the claims quantify over
successful calls); `read_to_string` succeeds whenever the file is
present. -/

/-- The token file: contents and unix permission mode. -/
structure TokenFile where
  contents : String
  mode : Nat
deriving DecidableEq, Repr

/-- The file-system state the store acts on: the token file, if any. -/
abbrev FsState := Option TokenFile

/-- `FileTokenStore::save_tokens`: serialize, then open with
`create(true).write(true).truncate(true).mode(0o600)` and write all
bytes.  Returns the new file state and the call's result. -/
def FileTokenStore.save_tokens (t : Tokens) (fs : FsState) :
    FsState × Except String Unit :=
  let data := serializeTokens t
  match fs with
  | some f => (some { contents := data, mode := f.mode }, .ok ())
  | none => (some { contents := data, mode := 0o600 }, .ok ())

/-- `FileTokenStore::clear_tokens`: remove the file if it exists,
succeed either way. -/
def FileTokenStore.clear_tokens (fs : FsState) :
    FsState × Except String Unit :=
  match fs with
  | some _ => (none, .ok ())
  | none => (none, .ok ())

/-- `FileTokenStore::load_tokens`: `Ok(None)` when the file is absent;
otherwise read and parse, surfacing a parse failure as an error with
the source's context message. -/
def FileTokenStore.load_tokens (fs : FsState) :
    Except String (Option Tokens) :=
  match fs with
  | none => .ok none
  | some f =>
      match parseTokens f.contents with
      | some t => .ok (some t)
      | none => .error "Failed to parse auth tokens"

/-! ## `Overdrip::logout` (`src/lib.rs`)

`logout` is `todo!()`: it unconditionally panics.  Divergence by panic
is modelled explicitly with an outcome type. -/

/-- Outcome of calling a Rust function that may panic instead of
returning. -/
inductive PanicOr (α : Type) where
  | panicked (msg : String)
  | returned (a : α)
deriving DecidableEq, Repr

/-- The `Config` struct as far as `Overdrip` uses it. -/
structure Config where
  tokens_path : String
deriving DecidableEq, Repr

/-- `pub struct Overdrip { pub config: Config }`. -/
structure OverdripApp where
  config : Config
deriving DecidableEq, Repr

/-- `Overdrip::logout`: the body is `todo!()`, which panics with the
message "not yet implemented" and never returns a `Result`. -/
def OverdripApp.logout (_self : OverdripApp) : PanicOr (Except String Unit) :=
  .panicked "not yet implemented"

/-! ## Lemmas: JSON string escaping round-trips through the parser -/

theorem hexVal_digitChar : ∀ d < 16, hexVal (Nat.digitChar d) = some d := by decide

theorem digitChar_isDigit : ∀ d < 10, (Nat.digitChar d).isDigit = true := by decide

theorem digitChar_val : ∀ d < 10, (Nat.digitChar d).toNat - 48 = d := by decide

theorem escapeString_cons (c : Char) (s : List Char) :
    escapeString (c :: s) = escapeChar c ++ escapeString s := by
  simp [escapeString]

/-- Parsing undoes escaping: the body parser consumes exactly the escaped
content and the closing quote. -/
theorem parseJsonString_escape (s rest : List Char) :
    parseJsonString (escapeString s ++ '"' :: rest) = some (s, rest) := by
  induction s with
  | nil =>
    rw [show escapeString [] = [] from rfl, List.nil_append,
      parseJsonString.eq_def]
    simp
  | cons c s ih =>
    rw [escapeString_cons, List.append_assoc]
    by_cases h1 : c = '"'
    · subst h1
      rw [show escapeChar '"' = ['\\', '"'] from rfl, List.cons_append,
        List.cons_append, List.nil_append, parseJsonString.eq_def]
      simp [ih]
    by_cases h2 : c = '\\'
    · subst h2
      rw [show escapeChar '\\' = ['\\', '\\'] from rfl, List.cons_append,
        List.cons_append, List.nil_append, parseJsonString.eq_def]
      simp [ih]
    by_cases h3 : c = Char.ofNat 8
    · subst h3
      rw [show escapeChar (Char.ofNat 8) = ['\\', 'b'] from rfl, List.cons_append,
        List.cons_append, List.nil_append, parseJsonString.eq_def]
      simp [ih]
    by_cases h4 : c = Char.ofNat 9
    · subst h4
      rw [show escapeChar (Char.ofNat 9) = ['\\', 't'] from rfl, List.cons_append,
        List.cons_append, List.nil_append, parseJsonString.eq_def]
      simp [ih]
    by_cases h5 : c = Char.ofNat 10
    · subst h5
      rw [show escapeChar (Char.ofNat 10) = ['\\', 'n'] from rfl, List.cons_append,
        List.cons_append, List.nil_append, parseJsonString.eq_def]
      simp [ih]
    by_cases h6 : c = Char.ofNat 12
    · subst h6
      rw [show escapeChar (Char.ofNat 12) = ['\\', 'f'] from rfl, List.cons_append,
        List.cons_append, List.nil_append, parseJsonString.eq_def]
      simp [ih]
    by_cases h7 : c = Char.ofNat 13
    · subst h7
      rw [show escapeChar (Char.ofNat 13) = ['\\', 'r'] from rfl, List.cons_append,
        List.cons_append, List.nil_append, parseJsonString.eq_def]
      simp [ih]
    by_cases h8 : c.toNat < 32
    · have hhi : hexVal (Nat.digitChar (c.toNat / 16)) = some (c.toNat / 16) :=
        hexVal_digitChar _ (by omega)
      have hlo : hexVal (Nat.digitChar (c.toNat % 16)) = some (c.toNat % 16) :=
        hexVal_digitChar _ (by omega)
      have hn : c.toNat / 16 * 16 + c.toNat % 16 = c.toNat := by omega
      have hvalid : Nat.isValidChar c.toNat := by
        have := c.valid
        simpa [UInt32.isValidChar, Char.toNat] using this
      rw [show escapeChar c
            = ['\\', 'u', '0', '0', Nat.digitChar (c.toNat / 16),
               Nat.digitChar (c.toNat % 16)] by
            simp only [escapeChar, if_neg h1, if_neg h2, if_neg h3, if_neg h4,
              if_neg h5, if_neg h6, if_neg h7, if_pos h8]]
      rw [List.cons_append, List.cons_append, List.cons_append, List.cons_append,
        List.cons_append, List.cons_append, List.nil_append, parseJsonString.eq_def]
      simp [show hexVal '0' = some 0 from rfl, hhi, hlo, hn, hvalid, ih]
    · rw [show escapeChar c = [c] by
          simp only [escapeChar, if_neg h1, if_neg h2, if_neg h3, if_neg h4,
            if_neg h5, if_neg h6, if_neg h7, if_neg h8],
        List.cons_append, List.nil_append, parseJsonString.eq_def]
      simp [h1, h2, h8, ih]

/-! ## Lemmas: decimal rendering round-trips through the number parser -/

theorem natCharsAux_eq_digits :
    ∀ fuel n, 0 < n → n ≤ fuel →
      natCharsAux fuel n = ((Nat.digits 10 n).map Nat.digitChar).reverse := by
  intro fuel
  induction fuel with
  | zero => intro n h1 h2; omega
  | succ fuel ih =>
    intro n hpos hle
    by_cases h : n < 10
    · rw [natCharsAux, if_pos h,
        Nat.digits_of_lt 10 n (by omega) h]
      simp
    · have hdiv_lt : n / 10 < n := Nat.div_lt_self hpos (by norm_num)
      have hdiv_pos : 0 < n / 10 := Nat.div_pos (by omega) (by norm_num)
      rw [natCharsAux, if_neg h, ih (n / 10) hdiv_pos (by omega),
        Nat.digits_def' (by norm_num : (1 : Nat) < 10) hpos]
      simp

theorem natChars_all_digits (n : Nat) :
    ∀ c ∈ natChars n, c.isDigit = true := by
  by_cases h : n = 0
  · subst h; decide
  · rw [natChars, natCharsAux_eq_digits (n + 1) n (by omega) (by omega)]
    intro c hc
    simp only [List.mem_reverse, List.mem_map] at hc
    obtain ⟨d, hd, rfl⟩ := hc
    exact digitChar_isDigit d (Nat.digits_lt_base (by norm_num) hd)

theorem foldr_digitChar_val (L : List Nat) (hL : ∀ d ∈ L, d < 10) :
    L.foldr (fun d a => a * 10 + ((Nat.digitChar d).toNat - 48)) 0
      = Nat.ofDigits 10 L := by
  induction L with
  | nil => simp [Nat.ofDigits]
  | cons d L ih =>
    have hd : d < 10 := hL d (by simp)
    have hrec := ih (fun x hx => hL x (by simp [hx]))
    simp only [List.foldr_cons, hrec, Nat.ofDigits_cons, digitChar_val d hd]
    ring

theorem foldl_natChars (n : Nat) :
    (natChars n).foldl (fun a c => a * 10 + (c.toNat - 48)) 0 = n := by
  by_cases h : n = 0
  · subst h; decide
  · rw [natChars, natCharsAux_eq_digits (n + 1) n (by omega) (by omega),
      List.foldl_reverse, List.foldr_map,
      foldr_digitChar_val _ (fun d hd => Nat.digits_lt_base (by norm_num) hd)]
    exact Nat.ofDigits_digits 10 n

theorem natChars_ne_nil (n : Nat) : natChars n ≠ [] := by
  by_cases h : n = 0
  · subst h; decide
  · rw [natChars, natCharsAux_eq_digits (n + 1) n (by omega) (by omega)]
    simp [Nat.digits_ne_nil_iff_ne_zero, h]

theorem takeWhile_append_of_all {p : Char → Bool} :
    ∀ (l1 l2 : List Char), (∀ c ∈ l1, p c = true) →
      (∀ c, l2.head? = some c → p c = false) →
      (l1 ++ l2).takeWhile p = l1 ∧ (l1 ++ l2).dropWhile p = l2 := by
  intro l1
  induction l1 with
  | nil =>
    intro l2 _ h2
    cases l2 with
    | nil => simp
    | cons c l2 =>
      have := h2 c (by simp)
      simp [List.takeWhile_cons, List.dropWhile_cons, this]
  | cons c l1 ih =>
    intro l2 h1 h2
    have hc : p c = true := h1 c (by simp)
    have := ih l2 (fun x hx => h1 x (by simp [hx])) h2
    simp [List.takeWhile_cons, List.dropWhile_cons, hc, this.1, this.2]

/-- The number parser reads back exactly the digits the renderer wrote. -/
theorem parseNumber_natChars (n : Nat) (rest : List Char)
    (h : ∀ c, rest.head? = some c → Char.isDigit c = false) :
    parseNumber (natChars n ++ rest) = some (n, rest) := by
  obtain ⟨htake, hdrop⟩ :=
    takeWhile_append_of_all (natChars n) rest (natChars_all_digits n) h
  rw [parseNumber, htake, hdrop]
  simp [List.isEmpty_iff, natChars_ne_nil n, foldl_natChars n]

/-! ## The serializer/parser round-trip -/

theorem quoteJson_append (s X : List Char) :
    quoteJson s ++ X = '"' :: (escapeString s ++ '"' :: X) := by
  simp [quoteJson]

theorem skipWs_lf (l : List Char) : skipWs ('\n' :: l) = skipWs l := rfl

theorem skipWs_sp (l : List Char) : skipWs (' ' :: l) = skipWs l := rfl

theorem skipWs_notWs (c : Char) (l : List Char) (h : isJsonWs c = false) :
    skipWs (c :: l) = c :: l := by
  simp [skipWs, List.dropWhile_cons, h]

theorem expectChar_hit (c : Char) (l : List Char) :
    expectChar c (c :: l) = some l := by
  simp [expectChar]

/-- A JSON string value written by the serializer parses back to its
content. -/
theorem parseStringValue_quote (s X : List Char) :
    parseStringValue (quoteJson s ++ X) = some (s, X) := by
  rw [quoteJson_append, parseStringValue, expectChar_hit]
  simp [parseJsonString_escape]

/-- A `"\n  "`-indented `"key": ` prefix written by the serializer is
consumed by `parseKey`, leaving the (whitespace-skipped) value text. -/
theorem parseKey_canonical (key V : List Char) :
    parseKey key ('\n' :: ' ' :: ' ' :: (quoteJson key ++ ':' :: ' ' :: V))
      = some (skipWs V) := by
  rw [parseKey, skipWs_lf, skipWs_sp, skipWs_sp, quoteJson_append,
    skipWs_notWs '"' _ (by decide), expectChar_hit]
  simp only [Option.bind_eq_bind, Option.pure_def, Option.some_bind, parseJsonString_escape]
  rw [skipWs_notWs ':' _ (by decide), expectChar_hit]
  simp [skipWs_sp]

/-- The round-trip at the heart of the token-store contract: parsing the
pretty-printed serialization of any token set gives back exactly that
token set. -/
theorem parseTokens_serializeTokens (t : Tokens) :
    parseTokens (serializeTokens t) = some t := by
  rw [parseTokens, serializeTokens]
  rw [show (⟨serializeTokensChars t⟩ : String).data = serializeTokensChars t from rfl,
    serializeTokensChars]
  rw [skipWs_notWs '{' _ (by decide), expectChar_hit]
  simp only [Option.bind_eq_bind, Option.pure_def, Option.some_bind]
  rw [parseKey_canonical]
  simp only [Option.bind_eq_bind, Option.pure_def, Option.some_bind]
  rw [quoteJson_append, skipWs_notWs '"' _ (by decide),
    show ('"' :: (escapeString t.access_token.data ++ '"' :: (',' :: '\n' :: ' ' :: ' ' ::
        (quoteJson "refresh_token".data ++ ':' :: ' ' ::
          (quoteJson t.refresh_token.data ++ ',' :: '\n' :: ' ' :: ' ' ::
            (quoteJson "expires_in".data ++ ':' :: ' ' ::
              (natChars t.expires_in ++ '\n' :: '}' :: [])))))))
      = quoteJson t.access_token.data ++ (',' :: '\n' :: ' ' :: ' ' ::
        (quoteJson "refresh_token".data ++ ':' :: ' ' ::
          (quoteJson t.refresh_token.data ++ ',' :: '\n' :: ' ' :: ' ' ::
            (quoteJson "expires_in".data ++ ':' :: ' ' ::
              (natChars t.expires_in ++ '\n' :: '}' :: []))))) from
      (quoteJson_append _ _).symm,
    parseStringValue_quote]
  simp only [Option.bind_eq_bind, Option.pure_def, Option.some_bind]
  rw [skipWs_notWs ',' _ (by decide), expectChar_hit]
  simp only [Option.bind_eq_bind, Option.pure_def, Option.some_bind]
  rw [parseKey_canonical]
  simp only [Option.bind_eq_bind, Option.pure_def, Option.some_bind]
  rw [quoteJson_append, skipWs_notWs '"' _ (by decide),
    show ('"' :: (escapeString t.refresh_token.data ++ '"' :: (',' :: '\n' :: ' ' :: ' ' ::
        (quoteJson "expires_in".data ++ ':' :: ' ' ::
          (natChars t.expires_in ++ '\n' :: '}' :: [])))))
      = quoteJson t.refresh_token.data ++ (',' :: '\n' :: ' ' :: ' ' ::
        (quoteJson "expires_in".data ++ ':' :: ' ' ::
          (natChars t.expires_in ++ '\n' :: '}' :: []))) from
      (quoteJson_append _ _).symm,
    parseStringValue_quote]
  simp only [Option.bind_eq_bind, Option.pure_def, Option.some_bind]
  rw [skipWs_notWs ',' _ (by decide), expectChar_hit]
  simp only [Option.bind_eq_bind, Option.pure_def, Option.some_bind]
  rw [parseKey_canonical]
  simp only [Option.bind_eq_bind, Option.pure_def, Option.some_bind]
  have hnum : skipWs (natChars t.expires_in ++ '\n' :: '}' :: [])
      = natChars t.expires_in ++ '\n' :: '}' :: [] := by
    cases hh : natChars t.expires_in with
    | nil => exact absurd hh (natChars_ne_nil _)
    | cons c cs =>
      have hc : c.isDigit = true := natChars_all_digits _ c (by rw [hh]; simp)
      rw [List.cons_append]
      refine skipWs_notWs c _ ?_
      cases hw : isJsonWs c with
      | false => rfl
      | true =>
        exfalso
        simp only [isJsonWs, Bool.or_eq_true, decide_eq_true_eq] at hw
        rcases hw with ((h | h) | h) | h <;> subst h <;> exact absurd hc (by decide)
  rw [hnum, parseNumber_natChars _ _ (by intro c hc; simp at hc; subst hc; decide)]
  simp only [Option.bind_eq_bind, Option.pure_def, Option.some_bind]
  rw [skipWs_lf, skipWs_notWs '}' _ (by decide), expectChar_hit]
  simp only [Option.bind_eq_bind, Option.pure_def, Option.some_bind]
  rfl


/-! ## The claims -/

/-- C1: for every pair returned by `generate_pkce_challenge`, the
challenge equals the base64url (URL-safe, no padding) encoding of the
SHA-256 digest of the verifier string's bytes, and the verifier is the
base64url-no-pad encoding of exactly the 32 random bytes drawn. -/
theorem C1_pkce_pair_spec (bytes : List Nat) (hlen : bytes.length = 32)
    (hbound : ∀ b ∈ bytes, b < 256) :
    (generate_pkce_challenge bytes).challenge
        = ⟨b64UrlNoPad (sha256 (utf8Bytes (generate_pkce_challenge bytes).verifier))⟩ ∧
    ∃ rb : List Nat, rb.length = 32 ∧ (∀ b ∈ rb, b < 256) ∧
      (generate_pkce_challenge bytes).verifier = ⟨b64UrlNoPad rb⟩ :=
  ⟨rfl, bytes, hlen, hbound, rfl⟩

/-- C1 witness: the all-zero 32-byte draw satisfies the hypotheses and
the conclusion. -/
theorem C1_pkce_pair_spec_witness :
    (List.replicate 32 0).length = 32 ∧ (∀ b ∈ List.replicate 32 0, b < 256) ∧
    ((generate_pkce_challenge (List.replicate 32 0)).challenge
        = ⟨b64UrlNoPad (sha256 (utf8Bytes
            (generate_pkce_challenge (List.replicate 32 0)).verifier))⟩ ∧
     ∃ rb : List Nat, rb.length = 32 ∧ (∀ b ∈ rb, b < 256) ∧
       (generate_pkce_challenge (List.replicate 32 0)).verifier = ⟨b64UrlNoPad rb⟩) :=
  ⟨by decide, by decide, C1_pkce_pair_spec (List.replicate 32 0) (by decide) (by decide)⟩

/-- C2: contrary to the claim, `exchange_code_for_tokens` ignores the
HTTP status and never parses the body into a token shape: on an HTTP
400 response it returns success (`Ok(())`) instead of an
`ExchangeProtocolError` — and even on success it produces no token
set (its success type is unit). -/
theorem C2_exchange_ignores_status_and_body :
    exchange_code_for_tokens "v" "c"
        (.ok { status := 400, body := "\x7b\"error\":\"invalid_grant\"\x7d" })
        (.ok "\x7b\"error\":\"invalid_grant\"\x7d") = .ok () := rfl

/-- Every branch of `Auth::login` prints the authorization URL of the
pair generated in this attempt as its first trace event. -/
theorem login_url_mem (randomBytes : List Nat) (bindOk : Bool)
    (recvResult : Option String) (serverTaskOk : Bool)
    (sendResult : Except String HttpResponse) (textResult : Except String String)
    (saveOk : Bool) :
    LoginEvent.urlPrinted (authUrl (generate_pkce_challenge randomBytes).challenge) ∈
      (Auth.login randomBytes bindOk recvResult serverTaskOk sendResult
        textResult saveOk).1 := by
  rw [Auth.login]
  split
  · exact List.mem_cons_self _ _
  · split
    · exact List.mem_cons_self _ _
    · split
      · exact List.mem_cons_self _ _
      · exact List.mem_cons_self _ _

/-- C3: whenever `Auth::login` invokes the token exchange, the verifier
argument is the verifier of the PKCE pair generated in this very login
attempt — the pair whose challenge is embedded (followed by
`&code_challenge_method=S256`) in the printed authorization URL. -/
theorem C3_exchange_uses_same_pair (randomBytes : List Nat) (bindOk : Bool)
    (recvResult : Option String) (serverTaskOk : Bool)
    (sendResult : Except String HttpResponse) (textResult : Except String String)
    (saveOk : Bool) (v c : String)
    (h : LoginEvent.exchangeCalled v c ∈
      (Auth.login randomBytes bindOk recvResult serverTaskOk sendResult
        textResult saveOk).1) :
    v = (generate_pkce_challenge randomBytes).verifier ∧
    ∃ pre : String,
      LoginEvent.urlPrinted
          (pre ++ (generate_pkce_challenge randomBytes).challenge
               ++ "&code_challenge_method=S256") ∈
        (Auth.login randomBytes bindOk recvResult serverTaskOk sendResult
          textResult saveOk).1 := by
  refine ⟨?_,
    ⟨"https://accounts.google.com/o/oauth2/v2/auth?client_id=" ++ CLIENT_ID ++
      "&redirect_uri=http://localhost:8080/callback&response_type=code&scope=openid%20email%20profile&code_challenge=",
     login_url_mem randomBytes bindOk recvResult serverTaskOk sendResult
       textResult saveOk⟩⟩
  rw [Auth.login] at h
  split at h
  · simp at h
  · split at h
    · simp at h
      exact h.1
    · split at h
      · simp at h
        exact h.1
      · simp at h
        exact h.1

/-- C3 witness: a successful login run at the all-zero draw calls the
exchange with that run's own verifier, and the printed URL embeds the
matching challenge. -/
theorem C3_exchange_uses_same_pair_witness :
    (LoginEvent.exchangeCalled
        (generate_pkce_challenge (List.replicate 32 0)).verifier "xyz" ∈
      (Auth.login (List.replicate 32 0) true (some "xyz") true
        (.ok { status := 200, body := "ok" }) (.ok "ok") true).1) ∧
    ((generate_pkce_challenge (List.replicate 32 0)).verifier
        = (generate_pkce_challenge (List.replicate 32 0)).verifier ∧
     ∃ pre : String,
       LoginEvent.urlPrinted
           (pre ++ (generate_pkce_challenge (List.replicate 32 0)).challenge
                ++ "&code_challenge_method=S256") ∈
         (Auth.login (List.replicate 32 0) true (some "xyz") true
           (.ok { status := 200, body := "ok" }) (.ok "ok") true).1) := by
  have hmem : LoginEvent.exchangeCalled
      (generate_pkce_challenge (List.replicate 32 0)).verifier "xyz" ∈
      (Auth.login (List.replicate 32 0) true (some "xyz") true
        (.ok { status := 200, body := "ok" }) (.ok "ok") true).1 := by
    simp [Auth.login, start_oath_server, exchange_code_for_tokens]
  exact ⟨hmem, C3_exchange_uses_same_pair _ _ _ _ _ _ _ _ _ hmem⟩

/-- C4: in every execution of `start_oath_server`, the shutdown signal
occurs in the caller's trace only after the authorization code has been
received from the hand-off channel, and a successful return implies the
trace ends with the listener task's termination. -/
theorem C4_shutdown_after_code_and_return_after_stop (bindOk : Bool)
    (recvResult : Option String) (serverTaskOk : Bool) (i : Nat)
    (h : ((start_oath_server bindOk recvResult serverTaskOk).1)[i]?
        = some ServerEvent.shutdownSent) :
    (∃ j, j < i ∧ ∃ code,
      ((start_oath_server bindOk recvResult serverTaskOk).1)[j]?
          = some (ServerEvent.codeReceived code)) ∧
    ∀ code, (start_oath_server bindOk recvResult serverTaskOk).2 = .ok code →
      (start_oath_server bindOk recvResult serverTaskOk).1.getLast?
          = some ServerEvent.listenerTerminated := by
  cases bindOk with
  | false =>
    rw [start_oath_server.eq_def] at h
    simp at h
  | true =>
    cases recvResult with
    | none =>
      rw [start_oath_server.eq_def] at h
      rcases i with _ | i <;> simp_all
    | some code =>
      cases serverTaskOk with
      | true =>
        rw [start_oath_server.eq_def] at h ⊢
        have hi : i = 2 := by
          rcases i with _ | _ | _ | _ | i <;> simp_all
        subst hi
        exact ⟨⟨1, by omega, code, rfl⟩, fun _ _ => rfl⟩
      | false =>
        rw [start_oath_server.eq_def] at h ⊢
        have hi : i = 2 := by
          rcases i with _ | _ | _ | i <;> simp_all
        subst hi
        refine ⟨⟨1, by omega, code, rfl⟩, fun c hc => ?_⟩
        simp at hc

/-- C4 witness: in the successful run delivering code "ABC", the
shutdown signal sits at index 2, after the code delivery at index 1,
and the trace ends with the listener's termination. -/
theorem C4_shutdown_after_code_and_return_after_stop_witness :
    (((start_oath_server true (some "ABC") true).1)[2]?
        = some ServerEvent.shutdownSent) ∧
    ((∃ j, j < 2 ∧ ∃ code,
        ((start_oath_server true (some "ABC") true).1)[j]?
            = some (ServerEvent.codeReceived code)) ∧
     ∀ code, (start_oath_server true (some "ABC") true).2 = .ok code →
       (start_oath_server true (some "ABC") true).1.getLast?
           = some ServerEvent.listenerTerminated) :=
  ⟨rfl, C4_shutdown_after_code_and_return_after_stop true (some "ABC") true 2 rfl⟩

/-- C5 counterexample: in an execution where the port bind fails, the
authorization URL is nevertheless displayed — `Auth::login` prints the
URL before `start_oath_server` attempts the bind — refuting "in no
execution with a failed bind is the URL displayed". -/
theorem C5_counterexample_url_shown_despite_bind_failure :
    (Auth.login (List.replicate 32 0) false none true
        (.ok { status := 200, body := "" }) (.ok "") true).2
      = .error AuthError.listenerBindError ∧
    ∃ u, LoginEvent.urlPrinted u ∈
      (Auth.login (List.replicate 32 0) false none true
        (.ok { status := 200, body := "" }) (.ok "") true).1 :=
  ⟨rfl, ⟨authUrl (generate_pkce_challenge (List.replicate 32 0)).challenge,
    login_url_mem (List.replicate 32 0) false none true
      (.ok { status := 200, body := "" }) (.ok "") true⟩⟩

/-- C5 amended: if binding the local port fails, the login flow fails
with the bind error and performs neither exchange nor save — but the
authorization URL has already been displayed before the bind is
attempted, so the failed-bind execution does show the URL. -/
theorem C5_bind_failure_error_after_url (randomBytes : List Nat)
    (recvResult : Option String) (serverTaskOk : Bool)
    (sendResult : Except String HttpResponse) (textResult : Except String String)
    (saveOk : Bool) :
    (Auth.login randomBytes false recvResult serverTaskOk sendResult
        textResult saveOk).2 = .error AuthError.listenerBindError ∧
    (Auth.login randomBytes false recvResult serverTaskOk sendResult
        textResult saveOk).1
      = [LoginEvent.urlPrinted
          (authUrl (generate_pkce_challenge randomBytes).challenge)] := by
  rw [Auth.login]
  rw [show start_oath_server false recvResult serverTaskOk
      = ([], .error AuthError.listenerBindError) from rfl]
  exact ⟨rfl, rfl⟩

/-- C6: if the hand-off channel closes before any code arrives
(`rx.recv()` returns `None`), `start_oath_server` returns the
channel-closed error — it neither returns a code nor reaches the
shutdown handshake. -/
theorem C6_channel_closed_error (serverTaskOk : Bool) :
    start_oath_server true none serverTaskOk
      = ([ServerEvent.bound], .error AuthError.callbackChannelClosed) := rfl

/-- C7: the token-store round trip: after a save, a load returns exactly
the saved token set; after a clear, a load reports the file absent
(`Ok(None)`, not an error); and clearing succeeds whether or not the
file exists, in particular on an already-absent store. -/
theorem C7_store_roundtrip (t : Tokens) (fs : FsState) :
    FileTokenStore.load_tokens (FileTokenStore.save_tokens t fs).1 = .ok (some t) ∧
    FileTokenStore.load_tokens (FileTokenStore.clear_tokens fs).1 = .ok none ∧
    (FileTokenStore.clear_tokens fs).2 = .ok () ∧
    (FileTokenStore.clear_tokens none).2 = .ok () := by
  refine ⟨?_, ?_, ?_, rfl⟩
  · cases fs <;>
      simp [FileTokenStore.save_tokens, FileTokenStore.load_tokens,
        parseTokens_serializeTokens]
  · cases fs <;> rfl
  · cases fs <;> rfl

/-- C8 counterexample: `.mode(0o600)` takes effect only when the open
creates the file; saving over an existing token file whose mode is
0o644 leaves it at 0o644, not the claimed owner-only 0o600. -/
theorem C8_counterexample_existing_file_keeps_mode :
    ((FileTokenStore.save_tokens ⟨"a", "b", 1⟩
      (some { contents := "old", mode := 0o644 })).1.map TokenFile.mode)
        = some 0o644 ∧ (0o644 : Nat) ≠ 0o600 :=
  ⟨rfl, by decide⟩

/-- C8 amended: every successful save leaves the token file containing
exactly the JSON serialization of the saved token set, fully replacing
the previous contents; when the save creates the file its permissions
are 0o600, while a pre-existing file keeps its prior permissions. -/
theorem C8_save_replaces_contents (t : Tokens) (fs : FsState) :
    (FileTokenStore.save_tokens t fs).2 = .ok () ∧
    ∃ f : TokenFile, (FileTokenStore.save_tokens t fs).1 = some f ∧
      f.contents = serializeTokens t ∧
      (fs = none → f.mode = 0o600) ∧
      (∀ g, fs = some g → f.mode = g.mode) := by
  cases fs with
  | none =>
    refine ⟨rfl, { contents := serializeTokens t, mode := 0o600 }, rfl, rfl, ?_, ?_⟩
    · intro _; rfl
    · intro g hg; cases hg
  | some g =>
    refine ⟨rfl, { contents := serializeTokens t, mode := g.mode }, rfl, rfl, ?_, ?_⟩
    · intro hg; cases hg
    · intro g' hg; cases hg; rfl

/-- C8 amended, witness: a save on the absent file creates it with the
serialized contents and mode 0o600. -/
theorem C8_save_replaces_contents_witness :
    (FileTokenStore.save_tokens ⟨"a", "b", 1⟩ none).2 = .ok () ∧
    ∃ f : TokenFile,
      (FileTokenStore.save_tokens ⟨"a", "b", 1⟩ none).1 = some f ∧
      f.contents = serializeTokens ⟨"a", "b", 1⟩ ∧ f.mode = 0o600 := by
  obtain ⟨h1, f, h2, h3, h4, -⟩ := C8_save_replaces_contents ⟨"a", "b", 1⟩ none
  exact ⟨h1, f, h2, h3, h4 rfl⟩

/-- C9: `Overdrip::logout` is `todo!()`: for every receiver it panics
with "not yet implemented" and never returns, neither with `Ok` nor
with an error value. -/
theorem C9_logout_always_panics (app : OverdripApp) :
    app.logout = PanicOr.panicked "not yet implemented" ∧
    ∀ r : Except String Unit, app.logout ≠ PanicOr.returned r :=
  ⟨rfl, fun _ h => by cases h⟩

/-- C9 witness at a concrete `Overdrip` value. -/
theorem C9_logout_always_panics_witness :
    (OverdripApp.mk { tokens_path := "auth.json" }).logout
        = PanicOr.panicked "not yet implemented" ∧
    (OverdripApp.mk { tokens_path := "auth.json" }).logout
        ≠ PanicOr.returned (.ok ()) :=
  ⟨(C9_logout_always_panics _).1, (C9_logout_always_panics _).2 (.ok ())⟩

/-- C10: when the token file exists but its contents do not parse as the
token shape, `load_tokens` returns an error — never `Ok(None)` (that is
reserved for the absent file, as the second conjunct shows) and never a
token set. -/
theorem C10_load_parse_failure_is_error (contents : String) (mode : Nat)
    (h : parseTokens contents = none) :
    FileTokenStore.load_tokens (some { contents := contents, mode := mode })
        = .error "Failed to parse auth tokens" ∧
    FileTokenStore.load_tokens none = .ok none := by
  refine ⟨?_, rfl⟩
  simp [FileTokenStore.load_tokens, h]

/-- C10 witness: a file holding the non-JSON text "garbage". -/
theorem C10_load_parse_failure_is_error_witness :
    parseTokens "garbage" = none ∧
    (FileTokenStore.load_tokens (some { contents := "garbage", mode := 0o600 })
        = .error "Failed to parse auth tokens" ∧
     FileTokenStore.load_tokens none = .ok none) :=
  ⟨by decide, C10_load_parse_failure_is_error "garbage" 0o600 (by decide)⟩

end Overdrip
